import Mathlib

/-!
Verification of the transaction-management API (`src/app.py`).

The service stores each trade record as one JSON file `<trade_id>.json`
inside a single directory.  We embed:

* JSON values as `JVal` (the store treats field values opaquely, so the
  constructors cover what the claims need; nesting is irrelevant to them);
* a JSON object / Python dict as an insertion-ordered association list
  `Obj` with Python `dict` update semantics (`oset` replaces in place or
  appends);
* the storage directory as an association list `Dir` from file stem
  (the trade id) to file content, where a file is either a parseable
  JSON object or corrupt bytes (`FileData.corrupt`, on which `json.load`
  raises);
* the `TradeManager` static methods and the Flask route handlers as pure
  functions threading the directory state, with the wall clock and the
  `uuid.uuid4()` generator passed in as explicit string parameters.

Flask's `request.get_json()` raises `werkzeug.exceptions.BadRequest` on a
malformed body; that exception is *not* a `json.JSONDecodeError`, so in
`create_trade`/`update_trade` it is caught by the generic
`except Exception` clause, producing a 500 response.  The embedding models
a malformed body as `ReqBody.malformed` and routes it to the 500 envelope
exactly as the Python code does.
-/

set_option autoImplicit false

namespace TradeApi

/-- Decidable equality for `Except`, so store read results can be compared
by `decide` in concrete runs. -/
instance {ε α : Type} [DecidableEq ε] [DecidableEq α] :
    DecidableEq (Except ε α) := fun x y =>
  match x, y with
  | .error a, .error b =>
    if h : a = b then .isTrue (by rw [h])
    else .isFalse (by intro e; injection e; contradiction)
  | .ok a, .ok b =>
    if h : a = b then .isTrue (by rw [h])
    else .isFalse (by intro e; injection e; contradiction)
  | .error _, .ok _ => .isFalse (by intro e; exact Except.noConfusion e)
  | .ok _, .error _ => .isFalse (by intro e; exact Except.noConfusion e)

/-- A JSON value as the store and gateway handle it (opaquely). -/
inductive JVal where
  | jnull
  | jbool (b : Bool)
  | jnum (n : Int)
  | jstr (s : String)
deriving DecidableEq, Repr

/-- Python truthiness of a JSON value (`if not trade_id:` etc.). -/
def truthy : JVal → Bool
  | .jnull => false
  | .jbool b => b
  | .jnum n => n != 0
  | .jstr s => s != ""

/-- Python `str()` of a value, as used by the f-string building the
file name `f"{trade_id}.json"`. -/
def render : JVal → String
  | .jnull => "None"
  | .jbool b => if b then "True" else "False"
  | .jnum n => toString n
  | .jstr s => s

/-- A JSON object / Python dict: insertion-ordered key-value pairs. -/
abbrev Obj := List (String × JVal)

/-- Dict lookup `d.get(k)` (first matching key). -/
def oget : Obj → String → Option JVal
  | [], _ => none
  | (k', v) :: t, k => if k' = k then some v else oget t k

/-- Python `k in d`. -/
def ocontains (o : Obj) (k : String) : Bool :=
  (oget o k).isSome

/-- Python `d[k] = v`: replace in place if the key exists, else append. -/
def oset : Obj → String → JVal → Obj
  | [], k, v => [(k, v)]
  | (k', v') :: t, k, v => if k' = k then (k, v) :: t else (k', v') :: oset t k v

/-- Content of one stored `.json` file: a parseable JSON object, or bytes
on which `json.load` raises. -/
inductive FileData where
  | obj (o : Obj)
  | corrupt
deriving DecidableEq, Repr

/-- The trades directory: file stem (trade id) ↦ file content. -/
abbrev Dir := List (String × FileData)

/-- Embeds `os.path.exists` / lookup of the file named by a trade id. -/
def dget : Dir → String → Option FileData
  | [], _ => none
  | (k', v) :: t, k => if k' = k then some v else dget t k

def dcontains (d : Dir) (k : String) : Bool :=
  (dget d k).isSome

/-- Writing the file `<k>.json`: overwrite in place or create. -/
def dset : Dir → String → FileData → Dir
  | [], k, v => [(k, v)]
  | (k', v') :: t, k, v => if k' = k then (k, v) :: t else (k', v') :: dset t k v

/-- Embeds `os.remove` of the file named by a trade id (a file name occurs once
in a real directory, so removing the first occurrence is exact). -/
def derase : Dir → String → Dir
  | [], _ => []
  | (k', v) :: t, k => if k' = k then t else (k', v) :: derase t k

/-- Directory well-formedness: file names are distinct. -/
def wfDir (d : Dir) : Prop :=
  (d.map Prod.fst).Nodup

instance (d : Dir) : Decidable (wfDir d) := by
  unfold wfDir; infer_instance

/-- Embeds `TradeManager.save_trade`.  `genId` stands for the `str(uuid.uuid4())`
drawn when the record carries no truthy `trade_id`; `now` for
`datetime.now().isoformat()`.  Returns the new directory, the id string
used as the file stem (and returned by the Python function), and the
record as actually persisted (the Python code mutates `trade_data` in
place; the returned object is that mutated dict). -/
def saveTrade (dir : Dir) (td : Obj) (genId now : String) :
    Dir × String × Obj :=
  let idv := oget td "trade_id"
  let useGen : Bool := match idv with
    | none => true
    | some v => !truthy v
  let tid : String := match idv with
    | none => genId
    | some v => if truthy v then render v else genId
  let td1 : Obj := if useGen then oset td "trade_id" (.jstr genId) else td
  let td2 : Obj :=
    if ocontains td1 "timestamp" then td1 else oset td1 "timestamp" (.jstr now)
  (dset dir tid (.obj td2), tid, td2)

/-- Embeds `TradeManager.get_trade`: `none` sentinel when the file is missing,
`Except.error` when `json.load` raises on a corrupt file. -/
def getTradeM (dir : Dir) (tid : String) : Except Unit (Option Obj) :=
  match dget dir tid with
  | none => .ok none
  | some (.obj o) => .ok (some o)
  | some .corrupt => .error ()

/-- Embeds `TradeManager.get_all_trades`: reads every `.json` file in directory
order; `json.load` raises on the first corrupt file, discarding the
records already collected. -/
def getAllTradesM : Dir → Except Unit (List Obj)
  | [] => .ok []
  | (_, .corrupt) :: _ => .error ()
  | (_, .obj o) :: t =>
    match getAllTradesM t with
    | .error e => .error e
    | .ok l => .ok (o :: l)

/-- The JSON response bodies the gateway produces, flattened into one
record of optional fields, plus the HTTP status code. -/
structure Resp where
  status : Nat
  error : Option String := none
  message : Option String := none
  missing_fields : Option (List String) := none
  required_fields : Option (List String) := none
  trade_id : Option String := none
  trade_data : Option Obj := none
  count : Option Nat := none
  trades : Option (List Obj) := none
deriving DecidableEq, Repr

/-- A request body as `request.get_json()` sees it: a JSON object, or a
body on which JSON decoding fails (Flask then raises
`werkzeug.exceptions.BadRequest`). -/
inductive ReqBody where
  | json (o : Obj)
  | malformed
deriving DecidableEq, Repr

def requiredFields : List String :=
  ["symbol", "quantity", "price", "side"]

/-- The `except Exception` 500 envelope. -/
def internalError (msg : String) : Resp :=
  { status := 500, error := some "Internal server error", message := some msg }

/-- The 400 envelope for a missing/falsy JSON body. -/
def noJsonResp : Resp :=
  { status := 400, error := some "No JSON data provided",
    message := some "Request body must contain valid JSON" }

/-- The 404 envelope for an unknown trade id. -/
def notFound (tid : String) : Resp :=
  { status := 404, error := some "Trade not found",
    message := some ("No trade found with ID: " ++ tid) }

/-- Embeds `POST /api/trades` (`create_trade`).  A malformed body makes
`request.get_json()` raise `BadRequest`, which is not a
`json.JSONDecodeError` and therefore falls through to the generic
`except Exception` handler returning 500. -/
def createTrade (dir : Dir) (body : ReqBody) (genId now : String) :
    Dir × Resp :=
  match body with
  | .malformed =>
    (dir, internalError "400 Bad Request: Failed to decode JSON object")
  | .json td =>
    if td = [] then
      (dir, noJsonResp)
    else
      let missing := requiredFields.filter (fun f => !ocontains td f)
      if missing = [] then
        let r := saveTrade dir td genId now
        (r.1, { status := 201, message := some "Trade created successfully",
                trade_id := some r.2.1, trade_data := some r.2.2 })
      else
        (dir, { status := 400, error := some "Missing required fields",
                missing_fields := some missing,
                required_fields := some requiredFields })

/-- Embeds `GET /api/trades/<trade_id>` (`get_trade` route).  A stored record
that is falsy (the empty dict) takes the `else` branch of
`if trade_data:` and yields 404, like an absent file. -/
def getTradeRoute (dir : Dir) (tid : String) : Resp :=
  match getTradeM dir tid with
  | .error _ => internalError "json decode error"
  | .ok none => notFound tid
  | .ok (some o) =>
    if o = [] then notFound tid
    else { status := 200, message := some "Trade found", trade_data := some o }

/-- Embeds `GET /api/trades` (`get_all_trades` route). -/
def getAllRoute (dir : Dir) : Resp :=
  match getAllTradesM dir with
  | .error _ => internalError "json decode error"
  | .ok l =>
    { status := 200,
      message := some ("Retrieved " ++ toString l.length ++ " trades"),
      count := some l.length, trades := some l }

/-- Embeds `PUT /api/trades/<trade_id>` (`update_trade`).  `nowU` is the
`datetime.now()` call producing `updated_timestamp`; `nowS` the separate
call inside `save_trade` that fires when the body lacks `timestamp`. -/
def updateTrade (dir : Dir) (tid : String) (body : ReqBody)
    (genId nowU nowS : String) : Dir × Resp :=
  match getTradeM dir tid with
  | .error _ => (dir, internalError "json decode error")
  | .ok none => (dir, notFound tid)
  | .ok (some ex) =>
    if ex = [] then (dir, notFound tid)
    else
      match body with
      | .malformed =>
        (dir, internalError "400 Bad Request: Failed to decode JSON object")
      | .json td =>
        if td = [] then (dir, noJsonResp)
        else
          let td1 := oset td "trade_id" (.jstr tid)
          let td2 := oset td1 "updated_timestamp" (.jstr nowU)
          let r := saveTrade dir td2 genId nowS
          (r.1, { status := 200, message := some "Trade updated successfully",
                  trade_id := some tid, trade_data := some r.2.2 })

/-- Embeds `DELETE /api/trades/<trade_id>` (`delete_trade`). -/
def deleteTradeRoute (dir : Dir) (tid : String) : Dir × Resp :=
  if dcontains dir tid then
    (derase dir tid,
     { status := 200, message := some "Trade deleted successfully",
       trade_id := some tid })
  else
    (dir, notFound tid)

/-- Every file in the directory parses as a JSON object. -/
def allGood : Dir → Bool
  | [] => true
  | (_, .obj _) :: t => allGood t
  | (_, .corrupt) :: _ => false

/-- The records of the parseable files, in directory order. -/
def goodRecords : Dir → List Obj
  | [] => []
  | (_, .obj o) :: t => o :: goodRecords t
  | (_, .corrupt) :: t => goodRecords t

/-- The record carries no truthy `trade_id`, so `save_trade` draws a
fresh `uuid4` (the `if not trade_id:` branch). -/
def idFalsy (o : Obj) : Bool :=
  match oget o "trade_id" with
  | none => true
  | some v => !truthy v

/-- One gateway operation of a create/delete sequence. -/
inductive Op where
  | createOp (body : Obj) (genId now : String)
  | delOp (tid : String)
deriving DecidableEq, Repr

/-- Run a sequence of gateway operations, requiring every one to succeed:
each create must return 201 and must store an identifier not previously
persisted (the store-generated fresh-uuid case), and each delete must
return 200.  Returns `none` as soon as an operation misses these
conditions. -/
def checkRun : Dir → List Op → Option Dir
  | dir, [] => some dir
  | dir, .createOp b g t :: rest =>
    let res := createTrade dir (.json b) g t
    match res.2.trade_id with
    | some tid =>
      if res.2.status = 201 ∧ dcontains dir tid = false then checkRun res.1 rest
      else none
    | none => none
  | dir, .delOp tid :: rest =>
    let res := deleteTradeRoute dir tid
    if res.2.status = 200 then checkRun res.1 rest else none

def numCreates : List Op → Nat
  | [] => 0
  | .createOp _ _ _ :: t => numCreates t + 1
  | .delOp _ :: t => numCreates t

def numDeletes : List Op → Nat
  | [] => 0
  | .createOp _ _ _ :: t => numDeletes t
  | .delOp _ :: t => numDeletes t + 1

/-- A valid creation body: the four required fields, nothing else. -/
def sampleCreate : Obj :=
  [("symbol", .jstr "AAPL"), ("quantity", .jnum 100),
   ("price", .jnum 150), ("side", .jstr "BUY")]

/-- A full-replacement update body that omits `timestamp`. -/
def sampleUpdate : Obj :=
  [("symbol", .jstr "TSLA"), ("quantity", .jnum 5),
   ("price", .jnum 7), ("side", .jstr "SELL")]

/-- A store already holding a record under id `t1`. -/
def dirT1 : Dir := [("t1", .obj [("symbol", .jstr "X")])]

/-- A creation body that reuses the already-persisted id `t1`. -/
def reuseBody : Obj := sampleCreate ++ [("trade_id", .jstr "t1")]

section Lemmas

theorem oget_oset_self (o : Obj) (k : String) (v : JVal) :
    oget (oset o k v) k = some v := by
  induction o with
  | nil => simp [oset, oget]
  | cons hd t ih =>
    obtain ⟨k', v'⟩ := hd
    by_cases h : k' = k <;> simp [oset, oget, h, ih]

theorem oget_oset_ne (o : Obj) (k k' : String) (v : JVal) (h : k' ≠ k) :
    oget (oset o k v) k' = oget o k' := by
  induction o with
  | nil => simp [oset, oget, Ne.symm h]
  | cons hd t ih =>
    obtain ⟨k'', v''⟩ := hd
    by_cases h2 : k'' = k
    · subst h2
      simp [oset, oget, Ne.symm h]
    · simp [oset, oget, h2, ih]

theorem ocontains_oset_self (o : Obj) (k : String) (v : JVal) :
    ocontains (oset o k v) k = true := by
  simp [ocontains, oget_oset_self]

theorem ocontains_oset_ne (o : Obj) (k k' : String) (v : JVal) (h : k' ≠ k) :
    ocontains (oset o k v) k' = ocontains o k' := by
  simp [ocontains, oget_oset_ne o k k' v h]

theorem ocontains_oset_of (o : Obj) (k k' : String) (v : JVal)
    (h : ocontains o k' = true) : ocontains (oset o k v) k' = true := by
  by_cases h2 : k' = k
  · subst h2; exact ocontains_oset_self o k' v
  · rw [ocontains_oset_ne o k k' v h2]; exact h

theorem dget_dset_self (d : Dir) (k : String) (v : FileData) :
    dget (dset d k v) k = some v := by
  induction d with
  | nil => simp [dset, dget]
  | cons hd t ih =>
    obtain ⟨k', v'⟩ := hd
    by_cases h : k' = k <;> simp [dset, dget, h, ih]

theorem dget_dset_ne (d : Dir) (k k' : String) (v : FileData) (h : k' ≠ k) :
    dget (dset d k v) k' = dget d k' := by
  induction d with
  | nil => simp [dset, dget, Ne.symm h]
  | cons hd t ih =>
    obtain ⟨k'', v''⟩ := hd
    by_cases h2 : k'' = k
    · subst h2
      simp [dset, dget, Ne.symm h]
    · simp [dset, dget, h2, ih]

theorem dset_dset_same (d : Dir) (k : String) (v : FileData) :
    dset (dset d k v) k v = dset d k v := by
  induction d with
  | nil => simp [dset]
  | cons hd t ih =>
    obtain ⟨k', v'⟩ := hd
    by_cases h : k' = k <;> simp [dset, h, ih]

theorem length_dset_mem (d : Dir) (k : String) (v : FileData)
    (h : dcontains d k = true) : (dset d k v).length = d.length := by
  induction d with
  | nil => simp [dcontains, dget] at h
  | cons hd t ih =>
    obtain ⟨k', v'⟩ := hd
    by_cases h2 : k' = k
    · simp [dset, h2]
    · have h' : dcontains t k = true := by
        simpa [dcontains, dget, h2] using h
      simp [dset, h2, ih h']

theorem length_dset_fresh (d : Dir) (k : String) (v : FileData)
    (h : dcontains d k = false) : (dset d k v).length = d.length + 1 := by
  induction d with
  | nil => simp [dset]
  | cons hd t ih =>
    obtain ⟨k', v'⟩ := hd
    by_cases h2 : k' = k
    · simp [dcontains, dget, h2] at h
    · have h' : dcontains t k = false := by
        simpa [dcontains, dget, h2] using h
      simp [dset, h2, ih h']

theorem length_derase (d : Dir) (k : String)
    (h : dcontains d k = true) : (derase d k).length + 1 = d.length := by
  induction d with
  | nil => simp [dcontains, dget] at h
  | cons hd t ih =>
    obtain ⟨k', v'⟩ := hd
    by_cases h2 : k' = k
    · simp [derase, h2]
    · have h' : dcontains t k = true := by
        simpa [dcontains, dget, h2] using h
      simp [derase, h2, ih h']

theorem dget_derase_self (d : Dir) (k : String) (hwf : wfDir d) :
    dget (derase d k) k = none := by
  induction d with
  | nil => simp [derase, dget]
  | cons hd t ih =>
    obtain ⟨k', v'⟩ := hd
    rw [wfDir, List.map_cons, List.nodup_cons] at hwf
    by_cases h2 : k' = k
    · subst h2
      rcases h3 : dget t k' with _ | f
      · exact h3 ▸ (by simp [derase])
      · exfalso
        have : k' ∈ t.map Prod.fst := by
          clear ih hwf
          induction t with
          | nil => simp [dget] at h3
          | cons hd2 t2 ih2 =>
            obtain ⟨a, b⟩ := hd2
            by_cases h4 : a = k'
            · simp [h4]
            · simp [dget, h4] at h3
              simp [ih2 h3]
        exact hwf.1 this
    · simp [derase, dget, h2, ih hwf.2]

theorem dcontains_derase_self (d : Dir) (k : String) (hwf : wfDir d) :
    dcontains (derase d k) k = false := by
  simp [dcontains, dget_derase_self d k hwf]

theorem allGood_dset_obj (d : Dir) (k : String) (o : Obj)
    (h : allGood d = true) : allGood (dset d k (.obj o)) = true := by
  induction d with
  | nil => simp [dset, allGood]
  | cons hd t ih =>
    obtain ⟨k', v'⟩ := hd
    rcases v' with o' | _
    · by_cases h2 : k' = k <;>
        simp_all [dset, allGood, h2]
    · simp [allGood] at h

theorem allGood_derase (d : Dir) (k : String)
    (h : allGood d = true) : allGood (derase d k) = true := by
  induction d with
  | nil => simp [derase, allGood]
  | cons hd t ih =>
    obtain ⟨k', v'⟩ := hd
    rcases v' with o' | _
    · by_cases h2 : k' = k <;> simp_all [derase, allGood, h2]
    · simp [allGood] at h

theorem getAllTradesM_allGood (d : Dir) (h : allGood d = true) :
    getAllTradesM d = .ok (goodRecords d) := by
  induction d with
  | nil => simp [getAllTradesM, goodRecords]
  | cons hd t ih =>
    obtain ⟨k', v'⟩ := hd
    rcases v' with o' | _
    · simp [allGood] at h
      simp [getAllTradesM, goodRecords, ih h]
    · simp [allGood] at h

theorem goodRecords_length (d : Dir) (h : allGood d = true) :
    (goodRecords d).length = d.length := by
  induction d with
  | nil => simp [goodRecords]
  | cons hd t ih =>
    obtain ⟨k', v'⟩ := hd
    rcases v' with o' | _
    · simp [allGood] at h
      simp [goodRecords, ih h]
    · simp [allGood] at h

theorem getAllTradesM_corrupt (d : Dir) (h : allGood d = false) :
    getAllTradesM d = .error () := by
  induction d with
  | nil => simp [allGood] at h
  | cons hd t ih =>
    obtain ⟨k', v'⟩ := hd
    rcases v' with o' | _
    · simp [allGood] at h
      simp [getAllTradesM, ih h]
    · simp [getAllTradesM]

theorem saveTrade_shape (dir : Dir) (td : Obj) (g now : String) :
    saveTrade dir td g now =
      (dset dir (saveTrade dir td g now).2.1 (.obj (saveTrade dir td g now).2.2),
       (saveTrade dir td g now).2.1, (saveTrade dir td g now).2.2) := rfl

theorem saveTrade_truthy_id (dir : Dir) (td : Obj) (g now : String) (v : JVal)
    (hid : oget td "trade_id" = some v) (hv : truthy v = true) :
    saveTrade dir td g now =
      (dset dir (render v)
        (.obj (if ocontains td "timestamp" then td
               else oset td "timestamp" (.jstr now))),
       render v,
       if ocontains td "timestamp" then td
       else oset td "timestamp" (.jstr now)) := by
  simp [saveTrade, hid, hv]

theorem saveTrade_falsy_id (dir : Dir) (td : Obj) (g now : String)
    (hid : idFalsy td = true) :
    saveTrade dir td g now =
      (dset dir g
        (.obj (if ocontains (oset td "trade_id" (.jstr g)) "timestamp"
               then oset td "trade_id" (.jstr g)
               else oset (oset td "trade_id" (.jstr g)) "timestamp" (.jstr now))),
       g,
       if ocontains (oset td "trade_id" (.jstr g)) "timestamp"
       then oset td "trade_id" (.jstr g)
       else oset (oset td "trade_id" (.jstr g)) "timestamp" (.jstr now)) := by
  cases h : oget td "trade_id" with
  | none => simp [saveTrade, h]
  | some v =>
    rw [idFalsy, h] at hid
    simp at hid
    simp [saveTrade, h, hid]

theorem dget_of_dcontains_false (d : Dir) (k : String)
    (h : dcontains d k = false) : dget d k = none := by
  cases h2 : dget d k with
  | none => rfl
  | some f => simp [dcontains, h2] at h

end Lemmas

/-- C3 counterexample: the empty JSON object misses all four required
fields, yet Create answers it through the `if not trade_data:` branch,
whose 400 response carries no `missing_fields` array at all. -/
theorem create_empty_no_missing_fields_cex :
    ocontains [] "symbol" = false ∧
    (createTrade [] (.json []) "g1" "T0").2.status = 400 ∧
    (createTrade [] (.json []) "g1" "T0").2.missing_fields = none := by
  decide

/-- C3 (amended): for every *nonempty* object body missing at least one
required field, Create returns 400 whose `missing_fields` lists exactly
the absent required fields, and the store is unchanged. -/
theorem create_missing_fields_exact (dir : Dir) (b : Obj) (g t : String)
    (hb : b ≠ []) (f0 : String) (hf0 : f0 ∈ requiredFields)
    (hmiss : ocontains b f0 = false) :
    ∃ m, createTrade dir (.json b) g t =
        (dir, { status := 400, error := some "Missing required fields",
                missing_fields := some m,
                required_fields := some requiredFields }) ∧
      ∀ f, f ∈ m ↔ (f ∈ requiredFields ∧ ocontains b f = false) := by
  refine ⟨requiredFields.filter (fun f => !ocontains b f), ?_, ?_⟩
  · have hne : requiredFields.filter (fun f => !ocontains b f) ≠ [] := by
      intro hN
      have hmem : f0 ∈ requiredFields.filter (fun f => !ocontains b f) := by
        simp [List.mem_filter, hf0, hmiss]
      rw [hN] at hmem
      simp at hmem
    simp [createTrade, hb, hne]
  · intro f
    simp [List.mem_filter]

/-- C3 witness: `{"symbol": "AAPL"}` misses `quantity`, `price`, `side`. -/
theorem create_missing_fields_exact_witness :
    (([("symbol", JVal.jstr "AAPL")] : Obj) ≠ [] ∧
     "quantity" ∈ requiredFields ∧
     ocontains [("symbol", JVal.jstr "AAPL")] "quantity" = false) ∧
    ∃ m, createTrade [] (.json [("symbol", JVal.jstr "AAPL")]) "g1" "T0" =
        ([], { status := 400, error := some "Missing required fields",
               missing_fields := some m,
               required_fields := some requiredFields }) ∧
      ∀ f, f ∈ m ↔ (f ∈ requiredFields ∧
        ocontains [("symbol", JVal.jstr "AAPL")] f = false) :=
  ⟨⟨by decide, by decide, by decide⟩,
   create_missing_fields_exact [] [("symbol", JVal.jstr "AAPL")] "g1" "T0"
     (by decide) "quantity" (by decide) (by decide)⟩

/-- C4 counterexample: a store with one good and one corrupt unit makes
GetAll raise inside `json.load`, so the endpoint answers 500 with no
record list — the corrupt unit is not silently skipped. -/
theorem getAll_corrupt_cex :
    (getAllRoute [("a", .obj [("x", .jnum 1)]), ("b", .corrupt)]).status = 500 ∧
    (getAllRoute [("a", .obj [("x", .jnum 1)]), ("b", .corrupt)]).trades = none ∧
    ¬ (getAllRoute [("a", .obj [("x", .jnum 1)]), ("b", .corrupt)]).status = 200 := by
  decide

/-- C4 (amended): GetAll succeeds exactly on stores in which every unit
parses, returning all records; as soon as any unit is corrupt the
enumeration raises and the endpoint answers 500 with no list. -/
theorem getAll_characterization (dir : Dir) :
    (getAllRoute dir).status = (if allGood dir then 200 else 500) ∧
    (getAllRoute dir).trades =
      (if allGood dir then some (goodRecords dir) else none) ∧
    (getAllRoute dir).count = (if allGood dir then some dir.length else none) := by
  by_cases h : allGood dir = true
  · simp [getAllRoute, getAllTradesM_allGood dir h, h, goodRecords_length dir h]
  · have h' : allGood dir = false := by simpa using h
    simp [getAllRoute, getAllTradesM_corrupt dir h', h', internalError]

/-- C5: a Create body that fails JSON decoding makes Flask's
`request.get_json()` raise `BadRequest`, which the dead
`except json.JSONDecodeError` clause cannot catch; the generic
`except Exception` clause answers 500, not the 400 the code's own
`Invalid JSON format` branch (and the repository's test
`test_create_trade_invalid_json`) intends. -/
theorem create_malformed_body_500 :
    (createTrade [] .malformed "g1" "T0").2.status = 500 ∧
    (createTrade [] .malformed "g1" "T0").2.error = some "Internal server error" ∧
    (createTrade [] .malformed "g1" "T0").1 = [] ∧
    ¬ (createTrade [] .malformed "g1" "T0").2.status = 400 := by
  decide

/-- C9: an Update whose path id names no stored unit answers 404 and
leaves the store untouched, whatever the request body is (the body is
never read: the existence check precedes `request.get_json()`). -/
theorem update_unknown_id_404 (dir : Dir) (tid : String) (body : ReqBody)
    (g nU nS : String) (h : dcontains dir tid = false) :
    updateTrade dir tid body g nU nS = (dir, notFound tid) ∧
    (notFound tid).status = 404 := by
  have h' : dget dir tid = none := dget_of_dcontains_false dir tid h
  exact ⟨by simp [updateTrade, getTradeM, h'], rfl⟩

/-- C9 witness: unknown id on the empty store, body not even parseable. -/
theorem update_unknown_id_404_witness :
    dcontains [] "missing-id" = false ∧
    (updateTrade [] "missing-id" .malformed "g1" "T1" "T2" =
      ([], notFound "missing-id") ∧ (notFound "missing-id").status = 404) :=
  ⟨by decide,
   update_unknown_id_404 [] "missing-id" .malformed "g1" "T1" "T2" (by decide)⟩

/-- C10 counterexample: an Update with body `{}` on an id that names no
record answers 404, not the claimed 400 `No JSON data provided` — the
existence check runs before the body check. -/
theorem update_empty_body_unknown_id_cex :
    (updateTrade [] "x" (.json []) "g1" "T1" "T2").2.status = 404 ∧
    ¬ (updateTrade [] "x" (.json []) "g1" "T1" "T2").2.status = 400 ∧
    (updateTrade [] "x" (.json []) "g1" "T1" "T2").2.error =
      some "Trade not found" := by
  decide

/-- C10 (amended): a Create with body `{}` always answers 400
`No JSON data provided` and persists nothing; an Update with body `{}`
does the same provided its path id names an existing (nonempty) record —
on an unknown id the 404 wins instead. -/
theorem empty_object_body_rejected (dir : Dir) (tid : String) (ex : Obj)
    (g t g' nU nS : String)
    (hex : getTradeM dir tid = .ok (some ex)) (hexne : ex ≠ []) :
    createTrade dir (.json []) g t = (dir, noJsonResp) ∧
    updateTrade dir tid (.json []) g' nU nS = (dir, noJsonResp) ∧
    noJsonResp.status = 400 ∧
    noJsonResp.error = some "No JSON data provided" := by
  refine ⟨by simp [createTrade], ?_, rfl, rfl⟩
  simp [updateTrade, hex, hexne]

/-- C10 witness: store holding a nonempty record under `t1`. -/
theorem empty_object_body_rejected_witness :
    (getTradeM dirT1 "t1" = .ok (some [("symbol", JVal.jstr "X")]) ∧
     ([("symbol", JVal.jstr "X")] : Obj) ≠ []) ∧
    (createTrade dirT1 (.json []) "g1" "T0" = (dirT1, noJsonResp) ∧
     updateTrade dirT1 "t1" (.json []) "g2" "T1" "T2" = (dirT1, noJsonResp) ∧
     noJsonResp.status = 400 ∧
     noJsonResp.error = some "No JSON data provided") :=
  ⟨⟨by decide, by decide⟩,
   empty_object_body_rejected dirT1 "t1" [("symbol", JVal.jstr "X")]
     "g1" "T0" "g2" "T1" "T2" (by decide) (by decide)⟩

/-- C7: deleting an existing unit answers 200 and removes it; a
subsequent Get-one on the id answers 404, and a second Delete answers
404 without touching the store. -/
theorem delete_get_redelete (dir : Dir) (tid : String)
    (hwf : wfDir dir) (h : dcontains dir tid = true) :
    (deleteTradeRoute dir tid).2.status = 200 ∧
    getTradeM (deleteTradeRoute dir tid).1 tid = .ok none ∧
    (getTradeRoute (deleteTradeRoute dir tid).1 tid).status = 404 ∧
    (deleteTradeRoute (deleteTradeRoute dir tid).1 tid).2.status = 404 ∧
    (deleteTradeRoute (deleteTradeRoute dir tid).1 tid).1 =
      (deleteTradeRoute dir tid).1 := by
  have hdir : (deleteTradeRoute dir tid).1 = derase dir tid := by
    simp [deleteTradeRoute, h]
  have hnone : dget (derase dir tid) tid = none := dget_derase_self dir tid hwf
  have hdc : dcontains (derase dir tid) tid = false := by
    simp [dcontains, hnone]
  refine ⟨by simp [deleteTradeRoute, h], ?_, ?_, ?_, ?_⟩
  · rw [hdir]
    simp [getTradeM, hnone]
  · rw [hdir]
    simp [getTradeRoute, getTradeM, hnone, notFound]
  · rw [hdir]
    simp [deleteTradeRoute, hdc, notFound]
  · rw [hdir]
    simp [deleteTradeRoute, hdc]

/-- C7 witness: the singleton store under id `t1`. -/
theorem delete_get_redelete_witness :
    (wfDir dirT1 ∧ dcontains dirT1 "t1" = true) ∧
    ((deleteTradeRoute dirT1 "t1").2.status = 200 ∧
     getTradeM (deleteTradeRoute dirT1 "t1").1 "t1" = .ok none ∧
     (getTradeRoute (deleteTradeRoute dirT1 "t1").1 "t1").status = 404 ∧
     (deleteTradeRoute (deleteTradeRoute dirT1 "t1").1 "t1").2.status = 404 ∧
     (deleteTradeRoute (deleteTradeRoute dirT1 "t1").1 "t1").1 =
       (deleteTradeRoute dirT1 "t1").1) :=
  ⟨⟨by decide, by decide⟩,
   delete_get_redelete dirT1 "t1" (by decide) (by decide)⟩

/-- C8: for a record carrying a truthy `trade_id` that already names a
persisted unit, Save overwrites exactly that unit with the record as
persisted, leaves every other unit alone, adds no unit — and saving the
persisted record again (the Python call mutates and reuses the same
dict) leaves the store in the same state. -/
theorem save_overwrites_idempotent (dir : Dir) (r : Obj)
    (g t g' t' : String) (v : JVal)
    (hid : oget r "trade_id" = some v) (hv : truthy v = true)
    (hmem : dcontains dir (render v) = true) :
    (saveTrade dir r g t).2.1 = render v ∧
    dget (saveTrade dir r g t).1 (render v) =
      some (.obj (saveTrade dir r g t).2.2) ∧
    (∀ j, j ≠ render v → dget (saveTrade dir r g t).1 j = dget dir j) ∧
    (saveTrade dir r g t).1.length = dir.length ∧
    saveTrade (saveTrade dir r g t).1 (saveTrade dir r g t).2.2 g' t' =
      saveTrade dir r g t := by
  have hsave := saveTrade_truthy_id dir r g t v hid hv
  by_cases hts : ocontains r "timestamp" = true
  · rw [hsave]
    simp only [hts, if_true]
    refine ⟨by trivial, dget_dset_self dir (render v) _, ?_, ?_, ?_⟩
    · intro j hj
      exact dget_dset_ne dir (render v) j _ hj
    · exact length_dset_mem dir (render v) _ hmem
    · rw [saveTrade_truthy_id _ r g' t' v hid hv]
      simp [hts, dset_dset_same]
  · have hts' : ocontains r "timestamp" = false := by simpa using hts
    rw [hsave]
    simp only [hts', Bool.false_eq_true, if_false]
    have hid2 : oget (oset r "timestamp" (.jstr t)) "trade_id" = some v := by
      rw [oget_oset_ne r "timestamp" "trade_id" _ (by decide)]
      exact hid
    have hts2 : ocontains (oset r "timestamp" (.jstr t)) "timestamp" = true :=
      ocontains_oset_self r "timestamp" _
    refine ⟨by trivial, dget_dset_self dir (render v) _, ?_, ?_, ?_⟩
    · intro j hj
      exact dget_dset_ne dir (render v) j _ hj
    · exact length_dset_mem dir (render v) _ hmem
    · rw [saveTrade_truthy_id _ (oset r "timestamp" (.jstr t)) g' t' v hid2 hv]
      simp [hts2, dset_dset_same]

/-- C8 witness: overwrite the persisted unit `t1` with a new record. -/
theorem save_overwrites_idempotent_witness :
    (oget [("trade_id", JVal.jstr "t1"), ("symbol", JVal.jstr "Y")] "trade_id" =
       some (JVal.jstr "t1") ∧
     truthy (JVal.jstr "t1") = true ∧
     dcontains dirT1 (render (JVal.jstr "t1")) = true) ∧
    ((saveTrade dirT1 [("trade_id", JVal.jstr "t1"), ("symbol", JVal.jstr "Y")]
        "g1" "T1").2.1 = render (JVal.jstr "t1") ∧
     dget (saveTrade dirT1 [("trade_id", JVal.jstr "t1"), ("symbol", JVal.jstr "Y")]
        "g1" "T1").1 (render (JVal.jstr "t1")) =
       some (.obj (saveTrade dirT1
         [("trade_id", JVal.jstr "t1"), ("symbol", JVal.jstr "Y")] "g1" "T1").2.2) ∧
     (∀ j, j ≠ render (JVal.jstr "t1") →
       dget (saveTrade dirT1 [("trade_id", JVal.jstr "t1"), ("symbol", JVal.jstr "Y")]
         "g1" "T1").1 j = dget dirT1 j) ∧
     (saveTrade dirT1 [("trade_id", JVal.jstr "t1"), ("symbol", JVal.jstr "Y")]
        "g1" "T1").1.length = dirT1.length ∧
     saveTrade (saveTrade dirT1
         [("trade_id", JVal.jstr "t1"), ("symbol", JVal.jstr "Y")] "g1" "T1").1
       (saveTrade dirT1 [("trade_id", JVal.jstr "t1"), ("symbol", JVal.jstr "Y")]
         "g1" "T1").2.2 "g2" "T2" =
       saveTrade dirT1 [("trade_id", JVal.jstr "t1"), ("symbol", JVal.jstr "Y")]
         "g1" "T1") :=
  ⟨⟨by decide, by decide, by decide⟩,
   save_overwrites_idempotent dirT1
     [("trade_id", JVal.jstr "t1"), ("symbol", JVal.jstr "Y")]
     "g1" "T1" "g2" "T2" (JVal.jstr "t1") (by decide) (by decide) (by decide)⟩

theorem updateTrade_success_shape (dir : Dir) (tid : String) (U ex : Obj)
    (g nU nS : String)
    (hex : getTradeM dir tid = .ok (some ex)) (hexne : ex ≠ [])
    (hU : U ≠ []) :
    updateTrade dir tid (.json U) g nU nS =
      ((saveTrade dir
          (oset (oset U "trade_id" (.jstr tid)) "updated_timestamp" (.jstr nU))
          g nS).1,
       { status := 200, message := some "Trade updated successfully",
         trade_id := some tid,
         trade_data := some (saveTrade dir
           (oset (oset U "trade_id" (.jstr tid)) "updated_timestamp" (.jstr nU))
           g nS).2.2 }) := by
  simp [updateTrade, hex, hexne, hU]

/-- C1 counterexample: create with a body lacking `timestamp`, then
update with a full-replacement body that also lacks it.  The fetched
record is not the update body plus forced `trade_id` and
`updated_timestamp`: `save_trade` has injected a *fresh* `timestamp`
("T2", the update time), a field present in neither the update body nor
the claim's predicted record. -/
theorem update_regenerates_timestamp_cex :
    ocontains sampleUpdate "timestamp" = false ∧
    getTradeM (updateTrade (createTrade [] (.json sampleCreate) "id1" "T0").1
        "id1" (.json sampleUpdate) "g2" "T1" "T2").1 "id1" =
      .ok (some (sampleUpdate ++
        [("trade_id", .jstr "id1"), ("updated_timestamp", .jstr "T1"),
         ("timestamp", .jstr "T2")])) ∧
    ocontains (sampleUpdate ++
        [("trade_id", .jstr "id1"), ("updated_timestamp", .jstr "T1"),
         ("timestamp", .jstr "T2")]) "timestamp" = true ∧
    oget (sampleUpdate ++
        [("trade_id", .jstr "id1"), ("updated_timestamp", .jstr "T1"),
         ("timestamp", .jstr "T2")]) "timestamp" = some (.jstr "T2") := by
  decide

/-- C1 (amended): updating an existing record with a nonempty body `U`
stores and returns exactly `U` with `trade_id` forced to the path id,
`updated_timestamp` forced to the update time, and — precisely when `U`
omits `timestamp` — a `timestamp` field regenerated to the update-time
clock by `save_trade`; every other field of the original record absent
from `U` is dropped, and the fields of `U` keep their values. -/
theorem update_full_replace (dir : Dir) (tid : String) (U ex : Obj)
    (g nU nS : String)
    (hex : getTradeM dir tid = .ok (some ex)) (hexne : ex ≠ [])
    (hU : U ≠ []) (htid : tid ≠ "") :
    ∃ stored,
      (updateTrade dir tid (.json U) g nU nS).2.status = 200 ∧
      (updateTrade dir tid (.json U) g nU nS).2.trade_data = some stored ∧
      getTradeM (updateTrade dir tid (.json U) g nU nS).1 tid =
        .ok (some stored) ∧
      oget stored "trade_id" = some (.jstr tid) ∧
      oget stored "updated_timestamp" = some (.jstr nU) ∧
      oget stored "timestamp" =
        (if ocontains U "timestamp" then oget U "timestamp"
         else some (.jstr nS)) ∧
      ∀ k, k ≠ "trade_id" → k ≠ "updated_timestamp" → k ≠ "timestamp" →
        oget stored k = oget U k := by
  have hidv : oget (oset (oset U "trade_id" (.jstr tid)) "updated_timestamp"
      (.jstr nU)) "trade_id" = some (.jstr tid) := by
    rw [oget_oset_ne _ "updated_timestamp" "trade_id" _ (by decide)]
    exact oget_oset_self U "trade_id" _
  have htruthy : truthy (JVal.jstr tid) = true := by
    simp [truthy, htid]
  have hts : ocontains (oset (oset U "trade_id" (.jstr tid))
      "updated_timestamp" (.jstr nU)) "timestamp" = ocontains U "timestamp" := by
    rw [ocontains_oset_ne _ "updated_timestamp" "timestamp" _ (by decide),
        ocontains_oset_ne U "trade_id" "timestamp" _ (by decide)]
  have hupd := updateTrade_success_shape dir tid U ex g nU nS hex hexne hU
  have hsave := saveTrade_truthy_id dir
    (oset (oset U "trade_id" (.jstr tid)) "updated_timestamp" (.jstr nU))
    g nS (JVal.jstr tid) hidv htruthy
  rw [hts] at hsave
  refine ⟨if ocontains U "timestamp"
          then oset (oset U "trade_id" (.jstr tid)) "updated_timestamp" (.jstr nU)
          else oset (oset (oset U "trade_id" (.jstr tid)) "updated_timestamp"
            (.jstr nU)) "timestamp" (.jstr nS), ?_, ?_, ?_, ?_, ?_, ?_, ?_⟩
  · rw [hupd]
  · rw [hupd, hsave]
  · rw [hupd, hsave]
    simp only [render]
    simp [getTradeM, dget_dset_self]
  · by_cases hUt : ocontains U "timestamp" = true
    · simp only [hUt, if_true]
      exact hidv
    · have hUt' : ocontains U "timestamp" = false := by simpa using hUt
      simp only [hUt', Bool.false_eq_true, if_false]
      rw [oget_oset_ne _ "timestamp" "trade_id" _ (by decide)]
      exact hidv
  · by_cases hUt : ocontains U "timestamp" = true
    · simp only [hUt, if_true]
      exact oget_oset_self _ "updated_timestamp" _
    · have hUt' : ocontains U "timestamp" = false := by simpa using hUt
      simp only [hUt', Bool.false_eq_true, if_false]
      rw [oget_oset_ne _ "timestamp" "updated_timestamp" _ (by decide)]
      exact oget_oset_self _ "updated_timestamp" _
  · by_cases hUt : ocontains U "timestamp" = true
    · simp only [hUt, if_true]
      rw [oget_oset_ne _ "updated_timestamp" "timestamp" _ (by decide),
          oget_oset_ne U "trade_id" "timestamp" _ (by decide)]
    · have hUt' : ocontains U "timestamp" = false := by simpa using hUt
      simp only [hUt', Bool.false_eq_true, if_false]
      exact oget_oset_self _ "timestamp" _
  · intro k hk1 hk2 hk3
    by_cases hUt : ocontains U "timestamp" = true
    · simp only [hUt, if_true]
      rw [oget_oset_ne _ "updated_timestamp" k _ hk2,
          oget_oset_ne U "trade_id" k _ hk1]
    · have hUt' : ocontains U "timestamp" = false := by simpa using hUt
      simp only [hUt', Bool.false_eq_true, if_false]
      rw [oget_oset_ne _ "timestamp" k _ hk3,
          oget_oset_ne _ "updated_timestamp" k _ hk2,
          oget_oset_ne U "trade_id" k _ hk1]

/-- C1 witness: the store holding record `X` under `t1`, updated with a
four-field body omitting `timestamp`. -/
theorem update_full_replace_witness :
    (getTradeM dirT1 "t1" = .ok (some [("symbol", JVal.jstr "X")]) ∧
     ([("symbol", JVal.jstr "X")] : Obj) ≠ [] ∧
     sampleUpdate ≠ [] ∧ "t1" ≠ "") ∧
    ∃ stored,
      (updateTrade dirT1 "t1" (.json sampleUpdate) "g2" "T1" "T2").2.status = 200 ∧
      (updateTrade dirT1 "t1" (.json sampleUpdate) "g2" "T1" "T2").2.trade_data =
        some stored ∧
      getTradeM (updateTrade dirT1 "t1" (.json sampleUpdate) "g2" "T1" "T2").1
        "t1" = .ok (some stored) ∧
      oget stored "trade_id" = some (.jstr "t1") ∧
      oget stored "updated_timestamp" = some (.jstr "T1") ∧
      oget stored "timestamp" =
        (if ocontains sampleUpdate "timestamp" then oget sampleUpdate "timestamp"
         else some (.jstr "T2")) ∧
      ∀ k, k ≠ "trade_id" → k ≠ "updated_timestamp" → k ≠ "timestamp" →
        oget stored k = oget sampleUpdate k :=
  ⟨⟨by decide, by decide, by decide, by decide⟩,
   update_full_replace dirT1 "t1" sampleUpdate [("symbol", JVal.jstr "X")]
     "g2" "T1" "T2" (by decide) (by decide) (by decide) (by decide)⟩

/-- C2 counterexample: a creation body that carries the four required
fields *and* an already-persisted `trade_id` is accepted with 201 and
echoes that old id — the returned id was previously assigned (and the
old unit is overwritten). -/
theorem create_reuses_supplied_id_cex :
    dcontains dirT1 "t1" = true ∧
    (createTrade dirT1 (.json reuseBody) "g9" "T9").2.status = 201 ∧
    (createTrade dirT1 (.json reuseBody) "g9" "T9").2.trade_id = some "t1" := by
  decide

/-- C2 (amended): for a nonempty creation body holding the four required
fields and no truthy `trade_id`, Create answers 201 with the freshly
generated id (which, `uuid4` collisions being negligible, names no
stored unit), and Get-one on that id then returns a record whose field
set extends the input's plus `trade_id` and `timestamp`. -/
theorem create_fresh_id (dir : Dir) (b : Obj) (g now : String)
    (hb : b ≠ [])
    (hmiss : requiredFields.filter (fun f => !ocontains b f) = [])
    (hid : idFalsy b = true)
    (hfresh : dcontains dir g = false) :
    (createTrade dir (.json b) g now).2.status = 201 ∧
    (createTrade dir (.json b) g now).2.trade_id = some g ∧
    getTradeM dir g = .ok none ∧
    ∃ stored,
      getTradeM (createTrade dir (.json b) g now).1 g = .ok (some stored) ∧
      ocontains stored "trade_id" = true ∧
      ocontains stored "timestamp" = true ∧
      ∀ k, ocontains b k = true → ocontains stored k = true := by
  have hsave := saveTrade_falsy_id dir b g now hid
  have hcreate : createTrade dir (.json b) g now =
      ((saveTrade dir b g now).1,
       { status := 201, message := some "Trade created successfully",
         trade_id := some (saveTrade dir b g now).2.1,
         trade_data := some (saveTrade dir b g now).2.2 }) := by
    simp [createTrade, hb, hmiss]
  refine ⟨by rw [hcreate], ?_, ?_, ?_⟩
  · rw [hcreate, hsave]
  · simp [getTradeM, dget_of_dcontains_false dir g hfresh]
  · refine ⟨if ocontains (oset b "trade_id" (.jstr g)) "timestamp"
            then oset b "trade_id" (.jstr g)
            else oset (oset b "trade_id" (.jstr g)) "timestamp" (.jstr now),
      ?_, ?_, ?_, ?_⟩
    · rw [hcreate, hsave]
      simp [getTradeM, dget_dset_self]
    · by_cases hts : ocontains (oset b "trade_id" (.jstr g)) "timestamp" = true
      · simp only [hts, if_true]
        exact ocontains_oset_self b "trade_id" _
      · have hts' : ocontains (oset b "trade_id" (.jstr g)) "timestamp" = false := by
          simpa using hts
        simp only [hts', Bool.false_eq_true, if_false]
        exact ocontains_oset_of _ "timestamp" "trade_id" _
          (ocontains_oset_self b "trade_id" _)
    · by_cases hts : ocontains (oset b "trade_id" (.jstr g)) "timestamp" = true
      · simp [hts]
      · have hts' : ocontains (oset b "trade_id" (.jstr g)) "timestamp" = false := by
          simpa using hts
        simp only [hts', Bool.false_eq_true, if_false]
        exact ocontains_oset_self _ "timestamp" _
    · intro k hk
      have hk1 : ocontains (oset b "trade_id" (.jstr g)) k = true :=
        ocontains_oset_of b "trade_id" k _ hk
      by_cases hts : ocontains (oset b "trade_id" (.jstr g)) "timestamp" = true
      · simp only [hts, if_true]
        exact hk1
      · have hts' : ocontains (oset b "trade_id" (.jstr g)) "timestamp" = false := by
          simpa using hts
        simp only [hts', Bool.false_eq_true, if_false]
        exact ocontains_oset_of _ "timestamp" k _ hk1

/-- C2 witness: the four-field body on the empty store with fresh id
`g1`. -/
theorem create_fresh_id_witness :
    (sampleCreate ≠ [] ∧
     requiredFields.filter (fun f => !ocontains sampleCreate f) = [] ∧
     idFalsy sampleCreate = true ∧
     dcontains [] "g1" = false) ∧
    ((createTrade [] (.json sampleCreate) "g1" "T0").2.status = 201 ∧
     (createTrade [] (.json sampleCreate) "g1" "T0").2.trade_id = some "g1" ∧
     getTradeM [] "g1" = .ok none ∧
     ∃ stored,
       getTradeM (createTrade [] (.json sampleCreate) "g1" "T0").1 "g1" =
         .ok (some stored) ∧
       ocontains stored "trade_id" = true ∧
       ocontains stored "timestamp" = true ∧
       ∀ k, ocontains sampleCreate k = true → ocontains stored k = true) :=
  ⟨⟨by decide, by decide, by decide, by decide⟩,
   create_fresh_id [] sampleCreate "g1" "T0"
     (by decide) (by decide) (by decide) (by decide)⟩

theorem saveTrade_fst (dir : Dir) (td : Obj) (g now : String) :
    (saveTrade dir td g now).1 =
      dset dir (saveTrade dir td g now).2.1 (.obj (saveTrade dir td g now).2.2) :=
  rfl

theorem createTrade_201_shape (dir : Dir) (b : Obj) (g t : String)
    (h201 : (createTrade dir (.json b) g t).2.status = 201) :
    createTrade dir (.json b) g t =
      ((saveTrade dir b g t).1,
       { status := 201, message := some "Trade created successfully",
         trade_id := some (saveTrade dir b g t).2.1,
         trade_data := some (saveTrade dir b g t).2.2 }) := by
  by_cases hb : b = []
  · simp [createTrade, hb, noJsonResp] at h201
  · by_cases hm : requiredFields.filter (fun f => !ocontains b f) = []
    · simp [createTrade, hb, hm]
    · simp [createTrade, hb, hm] at h201

theorem checkRun_spec : ∀ (ops : List Op) (dir d' : Dir),
    checkRun dir ops = some d' → allGood dir = true →
    allGood d' = true ∧
    d'.length + numDeletes ops = dir.length + numCreates ops := by
  intro ops
  induction ops with
  | nil =>
    intro dir d' h hg
    simp [checkRun] at h
    subst h
    simp [numCreates, numDeletes, hg]
  | cons op rest ih =>
    intro dir d' h hg
    cases op with
    | createOp b g t =>
      simp only [checkRun] at h
      split at h
      case h_2 => simp at h
      case h_1 tid hti =>
        split at h
        case isFalse => simp at h
        case isTrue hc =>
          obtain ⟨h201, hfresh⟩ := hc
          have hshape := createTrade_201_shape dir b g t h201
          have htid2 : (saveTrade dir b g t).2.1 = tid := by
            rw [hshape] at hti
            simpa using hti
          have hdir : (createTrade dir (.json b) g t).1 =
              dset dir tid (.obj (saveTrade dir b g t).2.2) := by
            rw [hshape]
            show (saveTrade dir b g t).1 = _
            rw [saveTrade_fst, htid2]
          rw [hdir] at h
          have hg' : allGood (dset dir tid (.obj (saveTrade dir b g t).2.2)) = true :=
            allGood_dset_obj dir tid _ hg
          obtain ⟨hga, hlen⟩ := ih _ d' h hg'
          have hfl := length_dset_fresh dir tid (.obj (saveTrade dir b g t).2.2) hfresh
          refine ⟨hga, ?_⟩
          rw [hfl] at hlen
          simp only [numCreates, numDeletes]
          omega
    | delOp tid =>
      simp only [checkRun] at h
      by_cases hdc : dcontains dir tid = true
      · have hdel : deleteTradeRoute dir tid =
            (derase dir tid,
             { status := 200, message := some "Trade deleted successfully",
               trade_id := some tid }) := by
          simp [deleteTradeRoute, hdc]
        rw [hdel] at h
        simp only [if_pos rfl] at h
        have hg' : allGood (derase dir tid) = true := allGood_derase dir tid hg
        obtain ⟨hga, hlen⟩ := ih _ d' h hg'
        have hel := length_derase dir tid hdc
        refine ⟨hga, ?_⟩
        simp only [numCreates, numDeletes]
        omega
      · have hdc' : dcontains dir tid = false := by simpa using hdc
        have hdel : deleteTradeRoute dir tid = (dir, notFound tid) := by
          simp [deleteTradeRoute, hdc']
        rw [hdel] at h
        simp [notFound] at h

/-- C6 (amended): any sequence of gateway operations in which every
create succeeds with an identifier not already persisted (the
store-generated case) and every delete succeeds, run from the empty
store, ends with Get-all's `count` equal to the number of persisted
units, which is N − M for N creates and M deletes.  (A successful
create that *reuses* a persisted id overwrites instead of adding — see
the counterexample — which the amendment excludes.) -/
theorem count_after_creates_deletes (ops : List Op) (d' : Dir)
    (h : checkRun [] ops = some d') :
    (getAllRoute d').count = some d'.length ∧
    d'.length + numDeletes ops = numCreates ops ∧
    numDeletes ops ≤ numCreates ops := by
  obtain ⟨hg, hlen⟩ := checkRun_spec ops [] d' h rfl
  simp only [List.length_nil, Nat.zero_add] at hlen
  refine ⟨?_, hlen, by omega⟩
  simp [getAllRoute, getAllTradesM_allGood d' hg, goodRecords_length d' hg]

/-- C6 witness: two fresh creates then one delete leave one record. -/
theorem count_after_creates_deletes_witness :
    checkRun []
      [.createOp sampleCreate "g1" "T1", .createOp sampleCreate "g2" "T2",
       .delOp "g1"] =
      some [("g2", .obj (sampleCreate ++
        [("trade_id", .jstr "g2"), ("timestamp", .jstr "T2")]))] ∧
    ((getAllRoute [("g2", FileData.obj (sampleCreate ++
        [("trade_id", .jstr "g2"), ("timestamp", .jstr "T2")]))]).count =
      some ([("g2", FileData.obj (sampleCreate ++
        [("trade_id", .jstr "g2"), ("timestamp", .jstr "T2")]))] : Dir).length ∧
     ([("g2", FileData.obj (sampleCreate ++
        [("trade_id", .jstr "g2"), ("timestamp", .jstr "T2")]))] : Dir).length +
       numDeletes [.createOp sampleCreate "g1" "T1",
         .createOp sampleCreate "g2" "T2", .delOp "g1"] =
       numCreates [.createOp sampleCreate "g1" "T1",
         .createOp sampleCreate "g2" "T2", .delOp "g1"] ∧
     numDeletes [.createOp sampleCreate "g1" "T1",
         .createOp sampleCreate "g2" "T2", .delOp "g1"] ≤
       numCreates [.createOp sampleCreate "g1" "T1",
         .createOp sampleCreate "g2" "T2", .delOp "g1"]) :=
  ⟨by decide,
   count_after_creates_deletes
     [.createOp sampleCreate "g1" "T1", .createOp sampleCreate "g2" "T2",
      .delOp "g1"]
     [("g2", .obj (sampleCreate ++
       [("trade_id", .jstr "g2"), ("timestamp", .jstr "T2")]))]
     (by decide)⟩

/-- C6 counterexample: two successful creates (both 201) whose bodies
carry the same supplied `trade_id` leave one persisted record, so
Get-all reports `count = 1`, not the claimed N − M = 2. -/
theorem count_duplicate_creates_cex :
    (createTrade [] (.json reuseBody) "g1" "T1").2.status = 201 ∧
    (createTrade (createTrade [] (.json reuseBody) "g1" "T1").1
       (.json reuseBody) "g2" "T2").2.status = 201 ∧
    (getAllRoute (createTrade (createTrade [] (.json reuseBody) "g1" "T1").1
       (.json reuseBody) "g2" "T2").1).count = some 1 ∧
    ¬ (getAllRoute (createTrade (createTrade [] (.json reuseBody) "g1" "T1").1
       (.json reuseBody) "g2" "T2").1).count = some 2 := by
  decide

end TradeApi
